import Mathlib

/-!
Verification development for `scripts/fetch_transcript.py`.

The script selects a transcript track for a video (explicit English, then
auto-generated English, then the first available track), fetches its entries,
normalizes each entry to a record with keys `text`, `duration`, `offset`,
and prints the result as one JSON value, exiting 0 on success and 1 on any
failure path.

The external transcript provider (the `youtube_transcript_api` library) is an
opaque collaborator: we model an invocation's interaction with it as a
`Provider` value recording the outcome of `api.list(video_id)` and, for each
track, the outcome of `transcript.fetch()`.  Python exceptions are modelled by
`Except PyErr`; `sys.exit`/`print` are modelled by the final `ProcResult`
(the single JSON value written to stdout, and the process exit code).
-/

namespace FetchTranscript

/-- A JSON value, as produced by `json.dumps`. -/
inductive Json where
  | str (s : String)
  | num (q : Rat)
  | bool (b : Bool)
  | null
  | arr (xs : List Json)
  | obj (kvs : List (String × Json))

/-- Python exceptions relevant to the script: the two provider exceptions it
names (`TranscriptsDisabled`, `NoTranscriptFound`) and everything else
(`other`), each carrying its `str(e)` message. -/
inductive PyErr where
  | transcriptsDisabled (msg : String)
  | noTranscriptFound (msg : String)
  | other (msg : String)

/-- `str(e)` for a modelled Python exception. -/
def PyErr.msg : PyErr → String
  | .transcriptsDisabled m => m
  | .noTranscriptFound m => m
  | .other m => m

/-- One transcript track in the provider's listing: its language code and
whether it is auto-generated (versus explicit / human-authored). -/
structure Track where
  language : String
  isGenerated : Bool

/-- One fetched transcript entry.  The provider may return entries either as
attribute-bearing records (`i.text`, `i.duration`, `i.start`) or as Python
dicts (`i["text"]`, ...); a dict may in principle hold any keys and values. -/
inductive Entry where
  | attr (text : String) (duration : Rat) (start : Rat)
  | dict (kvs : List (String × Json))

/-- `isinstance(i, dict)` for a fetched entry. -/
def Entry.isDict : Entry → Bool
  | .attr _ _ _ => false
  | .dict _ => true

/-- The provider, as seen by a single invocation: the outcome of listing the
tracks for the video (in the provider's iteration order), and the outcome of
fetching the entries of any given track.  Either call may raise. -/
structure Provider where
  listResult : Except PyErr (List Track)
  fetchResult : Track → Except PyErr (List Entry)

/-- Modelled from the spec: the provider's find-track-by-language-preference,
explicit variant (`transcript_list.find_transcript(['en'])`).  The library is
an opaque external collaborator; per the spec it finds an explicit
(human-authored) track for the requested language, raising when none exists
(modelled as `none`, since the script catches that exception). -/
def find_transcript (tl : List Track) : Option Track :=
  tl.find? (fun t => t.language == "en" && !t.isGenerated)

/-- Modelled from the spec: the provider's find-track-by-language-preference,
auto-generated variant (`transcript_list.find_generated_transcript(['en'])`),
raising (modelled as `none`) when no generated track for the language exists. -/
def find_generated_transcript (tl : List Track) : Option Track :=
  tl.find? (fun t => t.language == "en" && t.isGenerated)

/-- Lines 12-22 of the script: try the explicit English track, on failure the
generated English track, on failure take the first track of the iteration
(the `for t in transcript_list: transcript = t; break` loop); `transcript`
stays `None` when the iteration is empty. -/
def selectTranscript (tl : List Track) : Option Track :=
  match find_transcript tl with
  | some t => some t
  | none =>
    match find_generated_transcript tl with
    | some t => some t
    | none => tl.head?

/-- Python dict lookup `kvs[k]` as an option (the dict is a key-value list,
first binding wins). -/
def lookupKey (kvs : List (String × Json)) (k : String) : Option Json :=
  match kvs.find? (fun kv => kv.fst == k) with
  | some kv => some kv.snd
  | none => none

/-- Python `i[k]` on a dict: the value when the key is present, otherwise a
`KeyError` exception. -/
def dictGet (kvs : List (String × Json)) (k : String) : Except PyErr Json :=
  match lookupKey kvs k with
  | some v => Except.ok v
  | none => Except.error (PyErr.other ("KeyError: " ++ k))

/-- One step of the attribute-branch comprehension (line 28):
`{"text": i.text, "duration": i.duration, "offset": i.start}`.  On a dict
entry, `i.text` raises `AttributeError`. -/
def normalizeAttr : Entry → Except PyErr Json
  | .attr t d s =>
    Except.ok (Json.obj [("text", Json.str t), ("duration", Json.num d), ("offset", Json.num s)])
  | .dict _ => Except.error (PyErr.other "AttributeError: dict object has no attribute text")

/-- One step of the dict-branch comprehension (line 30):
`{"text": i["text"], "duration": i["duration"], "offset": i["start"]}`.  On an
attribute-bearing entry, `i["text"]` raises `TypeError`. -/
def normalizeDict : Entry → Except PyErr Json
  | .attr _ _ _ => Except.error (PyErr.other "TypeError: object is not subscriptable")
  | .dict kvs =>
    match dictGet kvs "text" with
    | Except.error err => Except.error err
    | Except.ok t =>
      match dictGet kvs "duration" with
      | Except.error err => Except.error err
      | Except.ok d =>
        match dictGet kvs "start" with
        | Except.error err => Except.error err
        | Except.ok s =>
          Except.ok (Json.obj [("text", t), ("duration", d), ("offset", s)])

/-- A Python list comprehension `[f i for i in data]`: left to right, the
first raised exception aborts the whole list. -/
def listMapE (f : Entry → Except PyErr Json) : List Entry → Except PyErr (List Json)
  | [] => Except.ok []
  | e :: es =>
    match f e with
    | Except.error err => Except.error err
    | Except.ok x =>
      match listMapE f es with
      | Except.error err => Except.error err
      | Except.ok xs => Except.ok (x :: xs)

/-- Lines 27-30 of the script: `if data and not isinstance(data[0], dict)`
run the attribute-branch comprehension over all of `data`, else run the
dict-branch comprehension (which over an empty `data` yields `[]`). -/
def formatList (data : List Entry) : Except PyErr (List Json) :=
  match data with
  | [] => listMapE normalizeDict []
  | e :: es =>
    if e.isDict then listMapE normalizeDict (e :: es)
    else listMapE normalizeAttr (e :: es)

/-- The per-entry normalization the spec describes: read `text`, `duration`
and the start time from whichever form the entry itself has, and emit the
record keyed `text`, `duration`, `offset` with `offset` sourced from `start`.
(Spec-side definition, for comparison with `formatList`, which dispatches on
the shape of the first entry only.) -/
def normalizeEntry : Entry → Except PyErr Json
  | .attr t d s =>
    Except.ok (Json.obj [("text", Json.str t), ("duration", Json.num d), ("offset", Json.num s)])
  | .dict kvs => normalizeDict (.dict kvs)

/-- Whether a dict entry carries all three keys the dict-branch comprehension
reads (`text`, `duration`, `start`); false on an attribute-bearing entry. -/
def Entry.hasDictKeys : Entry → Bool
  | .attr _ _ _ => false
  | .dict kvs =>
    (lookupKey kvs "text").isSome && (lookupKey kvs "duration").isSome &&
      (lookupKey kvs "start").isSome

/-- The observable outcome of one run: the single JSON value written to
standard output, and the process exit status. -/
structure ProcResult where
  stdout : Json
  exitCode : Nat

/-- The JSON error object the script prints on every failure path. -/
def errorJson (m : String) : Json := Json.obj [("error", Json.str m)]

/-- `get_transcript(video_id)` (lines 5-42): list the tracks, select one,
fetch and normalize its entries, print; every exception (from listing,
fetching or normalizing) is caught and printed as the error object with exit
status 1, and an empty selection prints `error: No transcript found` with
exit status 1.  The `sys.exit(1)` calls escape the `except Exception`
handlers (SystemExit is not an Exception), so the status sticks. -/
def get_transcript (p : Provider) : ProcResult :=
  match p.listResult with
  | Except.error e => ⟨errorJson e.msg, 1⟩
  | Except.ok transcript_list =>
    match selectTranscript transcript_list with
    | none => ⟨errorJson "No transcript found", 1⟩
    | some transcript =>
      match p.fetchResult transcript with
      | Except.error e => ⟨errorJson e.msg, 1⟩
      | Except.ok data =>
        match formatList data with
        | Except.error e => ⟨errorJson e.msg, 1⟩
        | Except.ok formatted => ⟨Json.arr formatted, 0⟩

/-- The `__main__` block (lines 44-50): with fewer than two elements in
`sys.argv` (program name plus video id) print the usage error and exit 1,
otherwise run `get_transcript` against the provider. -/
def main (argv : List String) (p : Provider) : ProcResult :=
  if argv.length < 2 then ⟨errorJson "No video ID provided", 1⟩
  else get_transcript p

/-- Whether a modelled Python call returned normally. -/
def isOkE {α : Type} : Except PyErr α → Bool
  | Except.ok _ => true
  | Except.error _ => false

/-- Sample provider: one explicit English track whose fetch returns one
attribute-bearing entry (the example of spec section 8). -/
def providerA : Provider :=
  ⟨Except.ok [⟨"en", false⟩], fun _ => Except.ok [Entry.attr "Hello" 2 0]⟩

/-- Sample provider whose listing raises `TranscriptsDisabled`. -/
def providerB : Provider :=
  ⟨Except.error (PyErr.transcriptsDisabled "Subtitles are disabled for this video"),
   fun _ => Except.error (PyErr.other "unreachable")⟩

/-- Sample provider: a single non-English track whose fetch returns no
entries. -/
def providerEmpty : Provider :=
  ⟨Except.ok [⟨"fr", false⟩], fun _ => Except.ok []⟩

/-- Sample provider whose listing succeeds with no tracks at all. -/
def providerNoTracks : Provider :=
  ⟨Except.ok [], fun _ => Except.ok []⟩

/-- Mixed-shape entry sequence: an attribute-bearing entry followed by a dict
entry carrying all three keys. -/
def mixedData : List Entry :=
  [Entry.attr "a" 1 0,
   Entry.dict [("text", Json.str "b"), ("duration", Json.num 1), ("start", Json.num 2)]]

/-- Homogeneous attribute-bearing entry sequence. -/
def attrData : List Entry := [Entry.attr "a" 1 0, Entry.attr "b" 2 3]

/-! ## Helper lemmas -/

theorem listMapE_length {f : Entry → Except PyErr Json} :
    ∀ {data : List Entry} {xs : List Json},
      listMapE f data = Except.ok xs → xs.length = data.length := by
  intro data
  induction data with
  | nil =>
    intro xs h
    simp only [listMapE] at h
    cases h
    rfl
  | cons e es ih =>
    intro xs h
    simp only [listMapE] at h
    split at h
    · cases h
    · split at h
      · cases h
      · cases h
        simpa using ih (by assumption)

theorem listMapE_get {f : Entry → Except PyErr Json} :
    ∀ {data : List Entry} {xs : List Json}, listMapE f data = Except.ok xs →
      ∀ i (hi : i < data.length) (hx : i < xs.length),
        f (data.get ⟨i, hi⟩) = Except.ok (xs.get ⟨i, hx⟩) := by
  intro data
  induction data with
  | nil =>
    intro xs h i hi hx
    exact absurd hi (Nat.not_lt_zero i)
  | cons e es ih =>
    intro xs h i hi hx
    simp only [listMapE] at h
    split at h
    · cases h
    · split at h
      · cases h
      · cases h
        match i with
        | 0 => simpa using (by assumption : f e = Except.ok _)
        | Nat.succ j =>
          exact ih (by assumption) j (Nat.lt_of_succ_lt_succ hi) (Nat.lt_of_succ_lt_succ hx)

theorem listMapE_ok_of_forall {f : Entry → Except PyErr Json} :
    ∀ {data : List Entry}, (∀ e ∈ data, ∃ j, f e = Except.ok j) →
      ∃ xs, listMapE f data = Except.ok xs := by
  intro data
  induction data with
  | nil => intro _; exact ⟨[], rfl⟩
  | cons e es ih =>
    intro h
    obtain ⟨j, hj⟩ := h e (List.mem_cons_self e es)
    obtain ⟨ys, hys⟩ := ih (fun x hx => h x (List.mem_cons_of_mem e hx))
    exact ⟨j :: ys, by simp only [listMapE, hj, hys]⟩

theorem listMapE_mem {f : Entry → Except PyErr Json} :
    ∀ {data : List Entry} {xs : List Json}, listMapE f data = Except.ok xs →
      ∀ j ∈ xs, ∃ e ∈ data, f e = Except.ok j := by
  intro data
  induction data with
  | nil =>
    intro xs h j hj
    simp only [listMapE] at h
    cases h
    cases hj
  | cons e es ih =>
    intro xs h j hj
    simp only [listMapE] at h
    split at h
    · cases h
    · split at h
      · cases h
      · cases h
        rcases List.mem_cons.mp hj with h0 | hs
        · exact ⟨e, List.mem_cons_self e es, by rw [h0] at *; assumption⟩
        · obtain ⟨e2, he2, hfe2⟩ := ih (by assumption) j hs
          exact ⟨e2, List.mem_cons_of_mem e he2, hfe2⟩

theorem normalizeAttr_entry {e : Entry} {j : Json} (h : normalizeAttr e = Except.ok j) :
    normalizeEntry e = Except.ok j := by
  cases e with
  | attr t d s => exact h
  | dict kvs =>
    simp only [normalizeAttr] at h
    cases h

theorem normalizeDict_entry {e : Entry} {j : Json} (h : normalizeDict e = Except.ok j) :
    normalizeEntry e = Except.ok j := by
  cases e with
  | attr t d s =>
    simp only [normalizeDict] at h
    cases h
  | dict kvs => simpa only [normalizeEntry] using h

theorem normalizeAttr_shape {e : Entry} {j : Json} (h : normalizeAttr e = Except.ok j) :
    ∃ t d s, j = Json.obj [("text", t), ("duration", d), ("offset", s)] := by
  cases e with
  | attr t d s =>
    simp only [normalizeAttr] at h
    cases h
    exact ⟨_, _, _, rfl⟩
  | dict kvs =>
    simp only [normalizeAttr] at h
    cases h

theorem normalizeDict_shape {e : Entry} {j : Json} (h : normalizeDict e = Except.ok j) :
    ∃ t d s, j = Json.obj [("text", t), ("duration", d), ("offset", s)] := by
  cases e with
  | attr t d s =>
    simp only [normalizeDict] at h
    cases h
  | dict kvs =>
    simp only [normalizeDict] at h
    split at h
    · cases h
    · split at h
      · cases h
      · split at h
        · cases h
        · cases h
          exact ⟨_, _, _, rfl⟩

theorem normalizeEntry_shape {e : Entry} {j : Json} (h : normalizeEntry e = Except.ok j) :
    ∃ t d s, j = Json.obj [("text", t), ("duration", d), ("offset", s)] := by
  cases e with
  | attr t d s =>
    simp only [normalizeEntry] at h
    cases h
    exact ⟨_, _, _, rfl⟩
  | dict kvs => exact normalizeDict_shape (by simpa only [normalizeEntry] using h)

theorem formatList_ok_get {data : List Entry} {xs : List Json}
    (h : formatList data = Except.ok xs) :
    xs.length = data.length ∧
      ∀ i (hi : i < data.length) (hx : i < xs.length),
        normalizeEntry (data.get ⟨i, hi⟩) = Except.ok (xs.get ⟨i, hx⟩) := by
  cases data with
  | nil =>
    simp only [formatList, listMapE] at h
    cases h
    refine ⟨rfl, ?_⟩
    intro i hi
    exact absurd hi (Nat.not_lt_zero i)
  | cons e es =>
    simp only [formatList] at h
    split at h
    · exact ⟨listMapE_length h, fun i hi hx => normalizeDict_entry (listMapE_get h i hi hx)⟩
    · exact ⟨listMapE_length h, fun i hi hx => normalizeAttr_entry (listMapE_get h i hi hx)⟩

theorem formatList_shape {data : List Entry} {xs : List Json}
    (h : formatList data = Except.ok xs) :
    ∀ j ∈ xs, ∃ t d s, j = Json.obj [("text", t), ("duration", d), ("offset", s)] := by
  intro j hj
  cases data with
  | nil =>
    simp only [formatList, listMapE] at h
    cases h
    cases hj
  | cons e es =>
    simp only [formatList] at h
    split at h
    · obtain ⟨e2, _, hf⟩ := listMapE_mem h j hj
      exact normalizeDict_shape hf
    · obtain ⟨e2, _, hf⟩ := listMapE_mem h j hj
      exact normalizeAttr_shape hf

theorem dictGet_eq_some {kvs : List (String × Json)} {k : String} {v : Json}
    (h : lookupKey kvs k = some v) : dictGet kvs k = Except.ok v := by
  unfold dictGet
  rw [h]

theorem normalizeAttr_ok_of_attr {e : Entry} (h : e.isDict = false) :
    ∃ j, normalizeAttr e = Except.ok j := by
  cases e with
  | attr t d s => exact ⟨_, rfl⟩
  | dict kvs => simp [Entry.isDict] at h

theorem normalizeDict_ok_of_keys {e : Entry} (h : e.hasDictKeys = true) :
    ∃ j, normalizeDict e = Except.ok j := by
  cases e with
  | attr t d s => simp [Entry.hasDictKeys] at h
  | dict kvs =>
    simp only [Entry.hasDictKeys, Bool.and_eq_true, Option.isSome_iff_exists] at h
    obtain ⟨⟨⟨t, ht⟩, d, hd⟩, s, hs⟩ := h
    refine ⟨Json.obj [("text", t), ("duration", d), ("offset", s)], ?_⟩
    simp only [normalizeDict]
    rw [dictGet_eq_some ht, dictGet_eq_some hd, dictGet_eq_some hs]

theorem main_cases (argv : List String) (p : Provider) :
    (∃ m, main argv p = ⟨errorJson m, 1⟩) ∨
      ∃ data xs, formatList data = Except.ok xs ∧ main argv p = ⟨Json.arr xs, 0⟩ := by
  unfold main
  split
  · exact Or.inl ⟨"No video ID provided", rfl⟩
  · unfold get_transcript
    split
    · exact Or.inl ⟨_, rfl⟩
    · split
      · exact Or.inl ⟨_, rfl⟩
      · split
        · exact Or.inl ⟨_, rfl⟩
        · split
          · exact Or.inl ⟨_, rfl⟩
          · exact Or.inr ⟨_, _, by assumption, rfl⟩

/-! ## Claim theorems -/

/-- C1: whenever the provider has an explicit (human-authored) English track,
the selection of lines 13-22 picks a track, that track is the explicit
finder's result, and it is an English, non-generated track (never a generated
English track and never the first-track fallback). -/
theorem C1_explicit_english_selected (tl : List Track)
    (h : ∃ t ∈ tl, t.language = "en" ∧ t.isGenerated = false) :
    ∃ t, selectTranscript tl = some t ∧ find_transcript tl = some t ∧
      t.language = "en" ∧ t.isGenerated = false := by
  obtain ⟨t0, ht0, hlang0, hgen0⟩ := h
  have hs : ∃ t, tl.find? (fun t => t.language == "en" && !t.isGenerated) = some t := by
    rw [← Option.isSome_iff_exists, List.find?_isSome]
    exact ⟨t0, ht0, by simp [hlang0, hgen0]⟩
  obtain ⟨t, ht⟩ := hs
  have hp := List.find?_some ht
  simp only [Bool.and_eq_true, beq_iff_eq, Bool.not_eq_true'] at hp
  refine ⟨t, ?_, ht, hp.1, hp.2⟩
  simp [selectTranscript, find_transcript, ht]

/-- C1 witness: a track list with a French track and an explicit English
track. -/
theorem C1_explicit_english_selected_witness :
    ∃ t, selectTranscript [Track.mk "fr" false, Track.mk "en" false] = some t ∧
      find_transcript [Track.mk "fr" false, Track.mk "en" false] = some t ∧
      t.language = "en" ∧ t.isGenerated = false :=
  C1_explicit_english_selected _ (by decide)

/-- C6: when every English track is auto-generated and at least one such
track exists, the selection picks a track, that track is the generated
finder's result, and it is a generated English track. -/
theorem C6_generated_english_selected (tl : List Track)
    (hOnlyGen : ∀ t ∈ tl, t.language = "en" → t.isGenerated = true)
    (hEx : ∃ t ∈ tl, t.language = "en" ∧ t.isGenerated = true) :
    ∃ t, selectTranscript tl = some t ∧ find_generated_transcript tl = some t ∧
      t.language = "en" ∧ t.isGenerated = true := by
  have hnone : tl.find? (fun t => t.language == "en" && !t.isGenerated) = none := by
    rw [List.find?_eq_none]
    intro t htl
    by_cases hl : t.language = "en"
    · simp [hl, hOnlyGen t htl hl]
    · simp [hl]
  obtain ⟨t0, ht0, hlang0, hgen0⟩ := hEx
  have hs : ∃ t, tl.find? (fun t => t.language == "en" && t.isGenerated) = some t := by
    rw [← Option.isSome_iff_exists, List.find?_isSome]
    exact ⟨t0, ht0, by simp [hlang0, hgen0]⟩
  obtain ⟨t, ht⟩ := hs
  have hp := List.find?_some ht
  simp only [Bool.and_eq_true, beq_iff_eq] at hp
  refine ⟨t, ?_, ht, hp.1, hp.2⟩
  simp [selectTranscript, find_transcript, find_generated_transcript, hnone, ht]

/-- C6 witness: a track list whose only English track is generated. -/
theorem C6_generated_english_selected_witness :
    ∃ t, selectTranscript [Track.mk "fr" false, Track.mk "en" true] = some t ∧
      find_generated_transcript [Track.mk "fr" false, Track.mk "en" true] = some t ∧
      t.language = "en" ∧ t.isGenerated = true :=
  C6_generated_english_selected _ (by decide) (by decide)

/-- C7: with no English track of either kind the selection is the first track
of the provider's iteration order, and when that iteration is empty the run
reports the `No transcript found` error with exit status 1 instead of
selecting a track. -/
theorem C7_no_english_first_track (tl : List Track) (p : Provider)
    (hp : p.listResult = Except.ok tl)
    (h : ∀ t ∈ tl, t.language ≠ "en") :
    selectTranscript tl = tl.head? ∧
      (tl = [] → get_transcript p = ⟨errorJson "No transcript found", 1⟩) := by
  have h1 : tl.find? (fun t => t.language == "en" && !t.isGenerated) = none := by
    rw [List.find?_eq_none]
    intro t htl
    simp [h t htl]
  have h2 : tl.find? (fun t => t.language == "en" && t.isGenerated) = none := by
    rw [List.find?_eq_none]
    intro t htl
    simp [h t htl]
  have hsel : selectTranscript tl = tl.head? := by
    simp [selectTranscript, find_transcript, find_generated_transcript, h1, h2]
  refine ⟨hsel, ?_⟩
  intro hnil
  subst hnil
  simp [get_transcript, hp, hsel]

/-- C7 witness: the empty track list, where the run reports the error. -/
theorem C7_no_english_first_track_witness :
    selectTranscript ([] : List Track) = ([] : List Track).head? ∧
      (([] : List Track) = [] →
        get_transcript providerNoTracks = ⟨errorJson "No transcript found", 1⟩) :=
  C7_no_english_first_track [] providerNoTracks rfl (by decide)

/-- C3: when the provider raises `TranscriptsDisabled` or `NoTranscriptFound`
(at listing, or at fetching the selected track), the run writes the JSON
object with the `error` key and that exception's message to standard output
and exits with a non-zero status; `get_transcript` is a total function of the
provider, so no fault escapes unhandled. -/
theorem C3_provider_error_handled (p : Provider) (e : PyErr)
    (hkind : (∃ m, e = PyErr.transcriptsDisabled m) ∨ ∃ m, e = PyErr.noTranscriptFound m)
    (hraise : p.listResult = Except.error e ∨
      ∃ tl tr, p.listResult = Except.ok tl ∧ selectTranscript tl = some tr ∧
        p.fetchResult tr = Except.error e) :
    (get_transcript p).stdout = errorJson e.msg ∧ (get_transcript p).exitCode ≠ 0 := by
  rcases hraise with hl | ⟨tl, tr, hl, hsel, hf⟩
  · simp [get_transcript, hl]
  · simp [get_transcript, hl, hsel, hf]

/-- C3 witness: a provider whose listing raises `TranscriptsDisabled`. -/
theorem C3_provider_error_handled_witness :
    (get_transcript providerB).stdout =
        errorJson (PyErr.transcriptsDisabled "Subtitles are disabled for this video").msg ∧
      (get_transcript providerB).exitCode ≠ 0 :=
  C3_provider_error_handled providerB
    (PyErr.transcriptsDisabled "Subtitles are disabled for this video")
    (Or.inl ⟨_, rfl⟩) (Or.inl rfl)

/-- C4: the run writes a single JSON value (the one `stdout` field of the
result), and on every invocation that exits with status 0 that value is a
JSON array each of whose elements is an object with exactly the keys `text`,
`duration`, `offset`. -/
theorem C4_success_output_shape (argv : List String) (p : Provider)
    (h0 : (main argv p).exitCode = 0) :
    ∃ xs, (main argv p).stdout = Json.arr xs ∧
      ∀ j ∈ xs, ∃ t d s, j = Json.obj [("text", t), ("duration", d), ("offset", s)] := by
  rcases main_cases argv p with ⟨m, hm⟩ | ⟨data, xs, hfmt, hm⟩
  · rw [hm] at h0
    exact absurd h0 one_ne_zero
  · rw [hm]
    exact ⟨xs, rfl, formatList_shape hfmt⟩

/-- C4 witness: a normal run against `providerA`. -/
theorem C4_success_output_shape_witness :
    (main ["fetch_transcript.py", "abc123"] providerA).exitCode = 0 ∧
      ∃ xs, (main ["fetch_transcript.py", "abc123"] providerA).stdout = Json.arr xs ∧
        ∀ j ∈ xs, ∃ t d s, j = Json.obj [("text", t), ("duration", d), ("offset", s)] :=
  ⟨rfl, C4_success_output_shape _ providerA rfl⟩

/-- C5: when a run fetched the entry sequence `data` and emitted the success
array `xs`, the array has the same length as the sequence and its i-th
element is the normalization of the i-th entry. -/
theorem C5_length_and_order (p : Provider) (tl : List Track) (tr : Track)
    (data : List Entry) (xs : List Json)
    (h1 : p.listResult = Except.ok tl) (h2 : selectTranscript tl = some tr)
    (h3 : p.fetchResult tr = Except.ok data)
    (h4 : get_transcript p = ⟨Json.arr xs, 0⟩) :
    xs.length = data.length ∧
      ∀ i (hi : i < data.length) (hx : i < xs.length),
        normalizeEntry (data.get ⟨i, hi⟩) = Except.ok (xs.get ⟨i, hx⟩) := by
  have hf : formatList data = Except.ok xs := by
    simp only [get_transcript, h1, h2, h3] at h4
    split at h4
    · exfalso
      injection h4 with hA hB
      exact absurd hB (by decide)
    · injection h4 with hA hB
      injection hA with hA2
      subst hA2
      assumption
  exact formatList_ok_get hf

/-- C5 witness: the one-entry fetch of `providerA`. -/
theorem C5_length_and_order_witness :
    ([Json.obj [("text", Json.str "Hello"), ("duration", Json.num 2),
        ("offset", Json.num 0)]] : List Json).length = [Entry.attr "Hello" 2 0].length ∧
      ∀ i (hi : i < [Entry.attr "Hello" 2 0].length)
        (hx : i < ([Json.obj [("text", Json.str "Hello"), ("duration", Json.num 2),
          ("offset", Json.num 0)]] : List Json).length),
        normalizeEntry ([Entry.attr "Hello" 2 0].get ⟨i, hi⟩) =
          Except.ok (([Json.obj [("text", Json.str "Hello"), ("duration", Json.num 2),
            ("offset", Json.num 0)]] : List Json).get ⟨i, hx⟩) :=
  C5_length_and_order providerA [⟨"en", false⟩] ⟨"en", false⟩ _ _ rfl rfl rfl rfl

/-- C8: with no video-identifier argument (fewer than two elements of
`sys.argv`), the run writes the `No video ID provided` error object, exits
with status 1, and its outcome does not depend on the provider at all (no
provider contact). -/
theorem C8_no_argument (argv : List String) (p q : Provider) (h : argv.length < 2) :
    main argv p = ⟨errorJson "No video ID provided", 1⟩ ∧ main argv p = main argv q := by
  constructor
  · simp [main, h]
  · simp [main, h]

/-- C8 witness: an invocation carrying only the script name. -/
theorem C8_no_argument_witness :
    main ["fetch_transcript.py"] providerA = ⟨errorJson "No video ID provided", 1⟩ ∧
      main ["fetch_transcript.py"] providerA = main ["fetch_transcript.py"] providerB :=
  C8_no_argument _ providerA providerB (by decide)

/-- C9: every run produces exactly one JSON value on standard output (the
`stdout` field of its `ProcResult`), and the exit status is 0 exactly when
that value is the success array; every failure path exits non-zero. -/
theorem C9_exit_zero_iff_success_array (argv : List String) (p : Provider) :
    (main argv p).exitCode = 0 ↔ ∃ xs, (main argv p).stdout = Json.arr xs := by
  rcases main_cases argv p with ⟨m, hm⟩ | ⟨data, xs, hfmt, hm⟩
  · rw [hm]
    constructor
    · intro h0
      exact absurd h0 one_ne_zero
    · rintro ⟨ys, hys⟩
      simp only [errorJson] at hys
      cases hys
  · rw [hm]
    exact iff_of_true rfl ⟨xs, rfl⟩

/-- C10: when the selected track's fetch returns an empty entry sequence the
run emits the empty JSON array with exit status 0 (an empty transcript is a
success). -/
theorem C10_empty_fetch_success (p : Provider) (tl : List Track) (tr : Track)
    (h1 : p.listResult = Except.ok tl) (h2 : selectTranscript tl = some tr)
    (h3 : p.fetchResult tr = Except.ok []) :
    get_transcript p = ⟨Json.arr [], 0⟩ := by
  simp [get_transcript, h1, h2, h3, formatList, listMapE]

/-- C10 witness: `providerEmpty` fetches no entries for its only track. -/
theorem C10_empty_fetch_success_witness :
    get_transcript providerEmpty = ⟨Json.arr [], 0⟩ :=
  C10_empty_fetch_success providerEmpty [⟨"fr", false⟩] ⟨"fr", false⟩ rfl rfl rfl

/-- C2 counterexample: each entry of `mixedData` is normalizable on its own
(its `text`, `duration` and start time are readable from its own form), yet
the script's sequence normalization raises instead of emitting records: it
dispatches on the shape of the first entry only, so the attribute read fails
on the second (dict) entry. -/
theorem C2_counterexample :
    isOkE (normalizeEntry (Entry.attr "a" 1 0)) = true ∧
      isOkE (normalizeEntry (Entry.dict [("text", Json.str "b"), ("duration", Json.num 1),
        ("start", Json.num 2)])) = true ∧
      isOkE (formatList mixedData) = false :=
  ⟨rfl, rfl, rfl⟩

/-- C2 amended: for every homogeneous fetched entry sequence (all entries
attribute-bearing, or all entries key-value mappings carrying the keys
`text`, `duration`, `start`), normalization succeeds and emits, in order, one
record per entry with exactly the keys `text`, `duration`, `offset`, the
`offset` sourced from the entry's start field. -/
theorem C2_normalization_homogeneous (data : List Entry)
    (h : (∀ e ∈ data, e.isDict = false) ∨ ∀ e ∈ data, e.hasDictKeys = true) :
    ∃ xs, formatList data = Except.ok xs ∧ xs.length = data.length ∧
      (∀ i (hi : i < data.length) (hx : i < xs.length),
        normalizeEntry (data.get ⟨i, hi⟩) = Except.ok (xs.get ⟨i, hx⟩)) ∧
      ∀ j ∈ xs, ∃ t d s, j = Json.obj [("text", t), ("duration", d), ("offset", s)] := by
  have hok : ∃ xs, formatList data = Except.ok xs := by
    cases data with
    | nil => exact ⟨[], rfl⟩
    | cons e es =>
      rcases h with hattr | hdict
      · have he : e.isDict = false := hattr e (List.mem_cons_self e es)
        obtain ⟨xs, hxs⟩ :=
          listMapE_ok_of_forall (fun x hx => normalizeAttr_ok_of_attr (hattr x hx))
        exact ⟨xs, by simp [formatList, he, hxs]⟩
      · have he : e.isDict = true := by
          have hk := hdict e (List.mem_cons_self e es)
          cases e with
          | attr t d s => simp [Entry.hasDictKeys] at hk
          | dict kvs => rfl
        obtain ⟨xs, hxs⟩ :=
          listMapE_ok_of_forall (fun x hx => normalizeDict_ok_of_keys (hdict x hx))
        exact ⟨xs, by simp [formatList, he, hxs]⟩
  obtain ⟨xs, hxs⟩ := hok
  obtain ⟨hlen, hget⟩ := formatList_ok_get hxs
  exact ⟨xs, hxs, hlen, hget, formatList_shape hxs⟩

/-- C2 witness: a homogeneous attribute-bearing sequence. -/
theorem C2_normalization_homogeneous_witness :
    ∃ xs, formatList attrData = Except.ok xs ∧ xs.length = attrData.length ∧
      (∀ i (hi : i < attrData.length) (hx : i < xs.length),
        normalizeEntry (attrData.get ⟨i, hi⟩) = Except.ok (xs.get ⟨i, hx⟩)) ∧
      ∀ j ∈ xs, ∃ t d s, j = Json.obj [("text", t), ("duration", d), ("offset", s)] :=
  C2_normalization_homogeneous attrData (Or.inl (by decide))

end FetchTranscript
